import Mathlib

/-
Verification of the camera/input core of the learning_wgpu repository.

Embedding conventions:
* `f32`/`f64` arithmetic is modelled as exact real arithmetic (`ℝ`); the
  mouse-delta pair and the movement-intent vector, whose claims are purely
  about exact rational constants, are modelled over `ℚ` so the theorems
  are decidable.
* Division by zero follows Lean's `x / 0 = 0` convention.  Where a claim
  is about an IEEE NaN being produced, the statable content is the
  zero-magnitude / zero-divisor condition that produces it, and branch
  decisions are checked to agree with IEEE comparison semantics on NaN
  (a comparison with NaN is false, which selects the same `else` branch
  that the model's `arccos 0 = π/2` selects).
* Rust struct methods taking `&mut self` become functions
  `State → args → State` (or `State → result × State` when they also
  return a value).
-/

/-! # src/input.rs -/

/-- The `InputState` struct of `src/input.rs` (lines 4-16).  The pending
mouse delta `(f64, f64)` is modelled over `ℚ`. -/
structure InputState where
  space_pressed : Bool
  shift_pressed : Bool
  forward_pressed : Bool
  backward_pressed : Bool
  left_pressed : Bool
  right_pressed : Bool
  tab_pressed : Bool
  up_pressed : Bool
  down_pressed : Bool
  ctrl_pressed : Bool
  unhandled_mouse_move : ℚ × ℚ
  deriving Repr, DecidableEq

/-- `InputState::SPRINT_SPEED` (input.rs line 30). -/
def InputState.SPRINT_SPEED : ℚ := 2.0

/-- `InputState::new` (input.rs lines 32-46): all flags false, zero delta. -/
def InputState.new : InputState :=
  { space_pressed := false
    shift_pressed := false
    forward_pressed := false
    backward_pressed := false
    left_pressed := false
    right_pressed := false
    tab_pressed := false
    up_pressed := false
    down_pressed := false
    ctrl_pressed := false
    unhandled_mouse_move := (0, 0) }

/-- `InputState::update_mouse` (input.rs lines 74-76): overwrites the
pending delta (last write wins). -/
def InputState.update_mouse (s : InputState) (delta : ℚ × ℚ) : InputState :=
  { s with unhandled_mouse_move := delta }

/-- `InputState::get_unhandled_mouse_move` (input.rs lines 78-82):
returns the pending delta and resets it to `(0, 0)`. -/
def InputState.get_unhandled_mouse_move (s : InputState) : (ℚ × ℚ) × InputState :=
  (s.unhandled_mouse_move, { s with unhandled_mouse_move := (0, 0) })

/-- A movement vector over `ℚ`, the result type of `get_movement`
(`cgmath::Vector3<f32>` in the source, exact constants only). -/
structure Vec3q where
  x : ℚ
  y : ℚ
  z : ℚ
  deriving Repr, DecidableEq

/-- `InputState::get_movement` (input.rs lines 84-108), transcribed
if-by-if: each held key adds `±1.5` on its axis and ctrl multiplies the
x component by `SPRINT_SPEED = 2`. -/
def InputState.get_movement (s : InputState) : Vec3q :=
  let m0 : Vec3q := ⟨0, 0, 0⟩
  let m1 := if s.forward_pressed then { m0 with x := m0.x + 1.5 } else m0
  let m2 := if s.backward_pressed then { m1 with x := m1.x - 1.5 } else m1
  let m3 := if s.right_pressed then { m2 with z := m2.z + 1.5 } else m2
  let m4 := if s.left_pressed then { m3 with z := m3.z - 1.5 } else m3
  let m5 := if s.space_pressed then { m4 with y := m4.y + 1.5 } else m4
  let m6 := if s.shift_pressed then { m5 with y := m5.y - 1.5 } else m5
  let m7 := if s.ctrl_pressed then { m6 with x := m6.x * InputState.SPRINT_SPEED } else m6
  m7

/-- Helper: the input state holding exactly the given movement-relevant
keys (tab/arrow keys, which `get_movement` ignores, left unpressed). -/
def mkKeys (f b l r sp sh c : Bool) : InputState :=
  { space_pressed := sp
    shift_pressed := sh
    forward_pressed := f
    backward_pressed := b
    left_pressed := l
    right_pressed := r
    tab_pressed := false
    up_pressed := false
    down_pressed := false
    ctrl_pressed := c
    unhandled_mouse_move := (0, 0) }

/-- C7 counterexample: with only the forward key held (no sprint), the
movement vector's x component has magnitude `1.5`, not `1` as the claim
states. -/
theorem get_movement_unit_axis_refuted :
    ¬ |((mkKeys true false false false false false false).get_movement).x| = 1 := by
  norm_num [mkKeys, InputState.get_movement, InputState.SPRINT_SPEED,
    abs_of_nonneg]

/-- C7 (amended): each axis of `get_movement` has magnitude `1.5` when
exactly one of its opposing keys is held and `0` when both or neither
are held (they cancel); the ctrl sprint modifier multiplies only the x
axis, doubling it to `3`. -/
theorem get_movement_axis_magnitudes (f b l r sp sh c : Bool) :
    |((mkKeys f b l r sp sh c).get_movement).x|
        = (if f = b then 0 else if c then 3 else 1.5) ∧
    |((mkKeys f b l r sp sh c).get_movement).z|
        = (if r = l then 0 else 1.5) ∧
    |((mkKeys f b l r sp sh c).get_movement).y|
        = (if sp = sh then 0 else 1.5) := by
  cases f <;> cases b <;> cases l <;> cases r <;> cases sp <;> cases sh <;> cases c <;>
    norm_num [mkKeys, InputState.get_movement, InputState.SPRINT_SPEED]

/-- C8: consuming the pending mouse delta returns the stored delta and
resets it, so a second consumption with no intervening record returns
`(0, 0)` (at-most-once delivery). -/
theorem get_unhandled_mouse_move_at_most_once (s : InputState) :
    (s.get_unhandled_mouse_move).1 = s.unhandled_mouse_move ∧
    (((s.get_unhandled_mouse_move).2).get_unhandled_mouse_move).1 = (0, 0) :=
  ⟨rfl, rfl⟩

/-! # Real-valued vectors (cgmath `Vector2<f32>` / `Vector3<f32>` /
`Point3<f32>`, floats modelled as reals) -/

/-- A 3-component real vector (`cgmath::Vector3<f32>` / `Point3<f32>`). -/
structure Vec3 where
  x : ℝ
  y : ℝ
  z : ℝ

/-- A 2-component real vector (`cgmath::Vector2<f32>`). -/
structure Vec2 where
  x : ℝ
  y : ℝ

/-- `cgmath` dot product of 3-vectors. -/
def dot3 (a b : Vec3) : ℝ := a.x * b.x + a.y * b.y + a.z * b.z

/-- `cgmath` cross product. -/
def cross3 (a b : Vec3) : Vec3 :=
  ⟨a.y * b.z - a.z * b.y, a.z * b.x - a.x * b.z, a.x * b.y - a.y * b.x⟩

/-- `cgmath` `magnitude` of a 3-vector: `sqrt (self.dot(self))`. -/
noncomputable def mag3 (v : Vec3) : ℝ := Real.sqrt (dot3 v v)

/-- `cgmath` `normalize` of a 3-vector: `self * (1 / magnitude)`. -/
noncomputable def normalize3 (v : Vec3) : Vec3 :=
  ⟨v.x * (1 / mag3 v), v.y * (1 / mag3 v), v.z * (1 / mag3 v)⟩

/-- `cgmath` dot product of 2-vectors. -/
def dot2 (a b : Vec2) : ℝ := a.x * b.x + a.y * b.y

/-- `cgmath` `magnitude` of a 2-vector. -/
noncomputable def mag2 (v : Vec2) : ℝ := Real.sqrt (dot2 v v)

/-- `cgmath` `normalize_to(self, len)`: `self * (len / magnitude)`. -/
noncomputable def normalize_to2 (v : Vec2) (len : ℝ) : Vec2 :=
  ⟨v.x * (len / mag2 v), v.y * (len / mag2 v)⟩

/-- Componentwise sum, for `self.loc + self.forward`. -/
def add3 (a b : Vec3) : Vec3 := ⟨a.x + b.x, a.y + b.y, a.z + b.z⟩

/-! # src/camera.rs -/

/-- The `Camera` struct (camera.rs lines 8-20). -/
structure Camera where
  loc : Vec3
  vel : Vec3
  acc : Vec3
  forward : Vec3
  up : Vec3
  right : Vec3
  yaw : ℝ
  pitch : ℝ
  aspect : ℝ
  speed : ℝ

/-- `Camera::WORLD_UP` (camera.rs lines 30-34). -/
def WORLD_UP : Vec3 := ⟨0, 1, 0⟩

/-- `Camera::SPRINT_SPEED` (camera.rs line 36). -/
def SPRINT_SPEED : ℝ := 10.0

/-- `Camera::WALK_SPEED` (camera.rs line 37). -/
def WALK_SPEED : ℝ := 5.0

/-- `Camera::DEACCELERATION` (camera.rs line 38). -/
def DEACCELERATION : ℝ := 5.0

/-- `Camera::ACCELERATION` (camera.rs line 39). -/
def ACCELERATION : ℝ := 5.0

/-- `Camera::BORDER_SPACE` (camera.rs line 40). -/
def BORDER_SPACE : ℝ := 150.0

/-- `app::INSTANCED_ROWS` (app.rs line 54), `usize` cast to `f32`. -/
def INSTANCED_ROWS : ℝ := 50

/-- `app::INSTANCED_COLS` (app.rs line 55), `usize` cast to `f32`. -/
def INSTANCED_COLS : ℝ := 50

/-- `app::INSTANCE_SPACING` (app.rs line 56). -/
def INSTANCE_SPACING : ℝ := 3.0

/-- `Camera::MAX_POS` (camera.rs lines 41-45). -/
def MAX_POS : Vec3 :=
  ⟨INSTANCED_ROWS * INSTANCE_SPACING + BORDER_SPACE, 100.0,
   INSTANCED_COLS * INSTANCE_SPACING + BORDER_SPACE⟩

/-- `Camera::MIN_POS` (camera.rs line 46). -/
def MIN_POS : Vec3 := ⟨-BORDER_SPACE, -BORDER_SPACE, -BORDER_SPACE⟩

/-- `Camera::FOVY` (camera.rs line 47). -/
def FOVY : ℝ := 90.0

/-- `Camera::ZNEAR` (camera.rs line 48). -/
def ZNEAR : ℝ := 0.1

/-- `Camera::ZFAR` (camera.rs line 49). -/
def ZFAR : ℝ := 1000.0

/-- `Camera::SENS` (camera.rs line 50). -/
def SENS : ℝ := 20.0

/-- Rust `f32::to_radians`: degrees times `π / 180`. -/
noncomputable def degToRad (x : ℝ) : ℝ := x * (Real.pi / 180)

/-- The local `forward` variable of `Camera::calc_vecs`
(camera.rs lines 239-243), before normalization. -/
noncomputable def forward_of (yaw pitch : ℝ) : Vec3 :=
  ⟨Real.cos (degToRad yaw) * Real.cos (degToRad pitch),
   Real.sin (degToRad pitch),
   Real.sin (degToRad yaw) * Real.cos (degToRad pitch)⟩

/-- `Camera::calc_vecs` (camera.rs lines 238-248): recompute the basis
from yaw/pitch.  `up` is built from the already-normalized `right` and
the unnormalized local `forward`, exactly as in the source. -/
noncomputable def Camera.calc_vecs (c : Camera) : Camera :=
  let f := forward_of c.yaw c.pitch
  let rgt := normalize3 (cross3 f WORLD_UP)
  { c with
    forward := normalize3 f
    right := rgt
    up := normalize3 (cross3 rgt f) }

/-- `Camera::new` (camera.rs lines 52-72): fields stored as supplied
(yaw and pitch are neither wrapped nor clamped), then `calc_vecs`. -/
noncomputable def Camera.new (loc : Vec3) (yaw pitch aspect : ℝ) : Camera :=
  Camera.calc_vecs
    { loc := loc
      vel := ⟨0, 0, 0⟩
      acc := ⟨0, 0, 0⟩
      forward := ⟨0, 0, 0⟩
      up := ⟨0, 0, 0⟩
      right := ⟨0, 0, 0⟩
      yaw := yaw
      pitch := pitch
      aspect := aspect
      speed := WALK_SPEED }

/-- `Camera::update_look` (camera.rs lines 214-232): integrate the mouse
delta into yaw/pitch, snap yaw to `0`/`360` when it leaves `[0, 360]`,
clamp pitch to `[-89.99, 89.99]`, then recompute the basis. -/
noncomputable def Camera.update_look (c : Camera) (look : ℝ × ℝ) (dt : ℝ) : Camera :=
  let yaw1 := c.yaw + SENS * look.1 * dt
  let pitch1 := c.pitch + SENS * (-look.2) * dt
  let yaw2 := if yaw1 > 360 then 0 else yaw1
  let yaw3 := if yaw2 < 0 then 360 else yaw2
  let pitch2 := if pitch1 > 89.99 then 89.99 else pitch1
  let pitch3 := if pitch2 < -89.99 then -89.99 else pitch2
  Camera.calc_vecs { c with yaw := yaw3, pitch := pitch3 }

/-- `Camera::set_aspect` (camera.rs lines 234-236). -/
def Camera.set_aspect (c : Camera) (aspect : ℝ) : Camera :=
  { c with aspect := aspect }

/-- Modelled from the spec: `InputState::movement_key_pressed`, called by
`Camera::update_speed` (camera.rs line 122) but absent from src/.  Per the
spec, the speed ramps up only while "sprinting-with-movement", so this
returns whether any movement key (forward/backward/left/right/up/down) is
currently held. -/
def InputState.movement_key_pressed (s : InputState) : Bool :=
  s.forward_pressed || s.backward_pressed || s.left_pressed ||
    s.right_pressed || s.space_pressed || s.shift_pressed

/-- `Camera::update_acc` (camera.rs lines 191-212): reset `acc`, then add
`ACCELERATION + DEACCELERATION` per held movement key (x = fwd/back,
z = right/left, y = space/shift). -/
def Camera.update_acc (c : Camera) (input : InputState) : Camera :=
  let a0 : Vec3 := ⟨0, 0, 0⟩
  let acc := ACCELERATION + DEACCELERATION
  let a1 := if input.forward_pressed then { a0 with x := a0.x + acc } else a0
  let a2 := if input.backward_pressed then { a1 with x := a1.x - acc } else a1
  let a3 := if input.right_pressed then { a2 with z := a2.z + acc } else a2
  let a4 := if input.left_pressed then { a3 with z := a3.z - acc } else a3
  let a5 := if input.space_pressed then { a4 with y := a4.y + acc } else a4
  let a6 := if input.shift_pressed then { a5 with y := a5.y - acc } else a5
  { c with acc := a6 }

/-- The free function `step` (camera.rs lines 251-263): move `x` towards
the target `tgt` (the source's `to` argument) by `amp`, stopping at the
target on overshoot. -/
noncomputable def step (x tgt amp : ℝ) : ℝ :=
  if x < tgt then
    let x1 := x + amp
    if x1 > tgt then tgt else x1
  else
    let x1 := x - amp
    if x1 < tgt then tgt else x1

/-- `PI / 2`, the `RIGHT_ANGLE` constant of `Camera::update_vel`
(camera.rs line 150). -/
noncomputable def RIGHT_ANGLE : ℝ := Real.pi / 2

/-- First half of `Camera::update_vel` (camera.rs lines 137-146): project
the commanded acceleration onto the normalized horizontal forward/right
basis and integrate it into the velocity; the y axis integrates directly. -/
noncomputable def Camera.vel_integrate (c : Camera) (dt : ℝ) : Camera :=
  let forward := normalize3 ⟨c.forward.x, 0, c.forward.z⟩
  let right := normalize3 ⟨c.right.x, 0, c.right.z⟩
  let vx1 := c.vel.x + c.acc.x * forward.x * dt
  let vz1 := c.vel.z + c.acc.x * forward.z * dt
  let vx2 := vx1 + c.acc.z * right.x * dt
  let vz2 := vz1 + c.acc.z * right.z * dt
  let vy1 := c.vel.y + c.acc.y * dt
  { c with vel := ⟨vx2, vy1, vz2⟩ }

/-- Second half of `Camera::update_vel` (camera.rs lines 148-188), the
friction section, acting on the state produced by `Camera.vel_integrate`
(whose `forward`/`right` fields it leaves untouched, so the local
normalized horizontal basis is recomputed identically here).
If exactly one horizontal acceleration component is zero, nudge the 2D
velocity along the corresponding basis vector, choosing the sign by
comparing the arccos angle between that basis vector and the velocity
with a right angle; if both are zero and both 2D velocity components are
nonzero, shrink the 2D velocity magnitude by `amp` (floored at 0);
the y component steps towards 0 whenever `acc.y = 0`. -/
noncomputable def Camera.vel_friction (c : Camera) (dt : ℝ) : Camera :=
  let forward := normalize3 ⟨c.forward.x, 0, c.forward.z⟩
  let right := normalize3 ⟨c.right.x, 0, c.right.z⟩
  let amp := dt * DEACCELERATION
  let vel_2d : Vec2 := ⟨c.vel.x, c.vel.z⟩
  let xz : ℝ × ℝ :=
    if c.acc.x = 0 ∧ c.acc.z ≠ 0 then
      let forward_2d : Vec2 := ⟨forward.x, forward.z⟩
      let theta_right_vel :=
        Real.arccos (dot2 forward_2d vel_2d / (mag2 forward_2d * mag2 vel_2d))
      if theta_right_vel > RIGHT_ANGLE then
        (c.vel.x + forward.x * amp, c.vel.z + forward.z * amp)
      else
        (c.vel.x - forward.x * amp, c.vel.z - forward.z * amp)
    else if c.acc.x ≠ 0 ∧ c.acc.z = 0 then
      let right_2d : Vec2 := ⟨right.x, right.z⟩
      let theta_right_vel :=
        Real.arccos (dot2 right_2d vel_2d / (mag2 right_2d * mag2 vel_2d))
      if theta_right_vel > RIGHT_ANGLE then
        (c.vel.x + right.x * amp, c.vel.z + right.z * amp)
      else
        (c.vel.x - right.x * amp, c.vel.z - right.z * amp)
    else if c.acc.x = 0 ∧ c.acc.z = 0 ∧ vel_2d.x ≠ 0 ∧ vel_2d.y ≠ 0 then
      let decreased := normalize_to2 vel_2d (max (mag2 vel_2d - amp) 0)
      (decreased.x, decreased.y)
    else
      (c.vel.x, c.vel.z)
  let vy := if c.acc.y = 0 then step c.vel.y 0 amp else c.vel.y
  { c with vel := ⟨xz.1, vy, xz.2⟩ }

/-- `Camera::update_vel` (camera.rs lines 136-189): acceleration
integration followed by the friction section. -/
noncomputable def Camera.update_vel (c : Camera) (dt : ℝ) : Camera :=
  (c.vel_integrate dt).vel_friction dt

/-- `Camera::update_speed` (camera.rs lines 121-134): ramp toward the
sprint speed while ctrl plus a movement key is held, otherwise back down,
clamped into `[WALK_SPEED, SPRINT_SPEED]`. -/
noncomputable def Camera.update_speed (c : Camera) (dt : ℝ) (input : InputState) : Camera :=
  let s1 := if input.ctrl_pressed ∧ input.movement_key_pressed then
      c.speed + dt * 5.0
    else
      c.speed - dt * 5.0
  let s2 := if s1 > SPRINT_SPEED then SPRINT_SPEED else s1
  let s3 := if s2 < WALK_SPEED then WALK_SPEED else s2
  { c with speed := s3 }

/-- `Camera::update_loc` (camera.rs lines 112-119):
`loc += speed * vel * dt` componentwise. -/
noncomputable def Camera.update_loc (c : Camera) (dt : ℝ) : Camera :=
  { c with loc := ⟨c.loc.x + c.speed * c.vel.x * dt,
                   c.loc.y + c.speed * c.vel.y * dt,
                   c.loc.z + c.speed * c.vel.z * dt⟩ }

/-- The first four statements of `Camera::update_pos`
(camera.rs lines 81-84): acceleration, velocity, speed and position
integration, before bound enforcement. -/
noncomputable def Camera.pre_bounds (c : Camera) (dt : ℝ) (input : InputState) : Camera :=
  (((c.update_acc input).update_vel dt).update_speed dt input).update_loc dt

/-- First bound check of `Camera::update_pos` (camera.rs lines 86-89). -/
noncomputable def Camera.clamp_max_x (c1 : Camera) : Camera :=
  if c1.loc.x > MAX_POS.x then
    { c1 with loc := { c1.loc with x := MAX_POS.x }, vel := { c1.vel with x := -c1.vel.x } }
  else c1

/-- Second bound check of `Camera::update_pos` (camera.rs lines 90-93). -/
noncomputable def Camera.clamp_max_y (c1 : Camera) : Camera :=
  if c1.loc.y > MAX_POS.y then
    { c1 with loc := { c1.loc with y := MAX_POS.y }, vel := { c1.vel with y := -c1.vel.y } }
  else c1

/-- Third bound check of `Camera::update_pos` (camera.rs lines 94-97). -/
noncomputable def Camera.clamp_max_z (c1 : Camera) : Camera :=
  if c1.loc.z > MAX_POS.z then
    { c1 with loc := { c1.loc with z := MAX_POS.z }, vel := { c1.vel with z := -c1.vel.z } }
  else c1

/-- Fourth bound check of `Camera::update_pos` (camera.rs lines 98-101). -/
noncomputable def Camera.clamp_min_x (c1 : Camera) : Camera :=
  if c1.loc.x < MIN_POS.x then
    { c1 with loc := { c1.loc with x := MIN_POS.x }, vel := { c1.vel with x := -c1.vel.x } }
  else c1

/-- Fifth bound check of `Camera::update_pos` (camera.rs lines 102-105). -/
noncomputable def Camera.clamp_min_y (c1 : Camera) : Camera :=
  if c1.loc.y < MIN_POS.y then
    { c1 with loc := { c1.loc with y := MIN_POS.y }, vel := { c1.vel with y := -c1.vel.y } }
  else c1

/-- Sixth bound check of `Camera::update_pos` (camera.rs lines 106-109). -/
noncomputable def Camera.clamp_min_z (c1 : Camera) : Camera :=
  if c1.loc.z < MIN_POS.z then
    { c1 with loc := { c1.loc with z := MIN_POS.z }, vel := { c1.vel with z := -c1.vel.z } }
  else c1

/-- The bound-enforcement tail of `Camera::update_pos`
(camera.rs lines 86-109): the six checks in source order; an axis whose
position left `[MIN_POS, MAX_POS]` is clamped to the crossed bound and
its velocity component negated. -/
noncomputable def Camera.apply_bounds (c1 : Camera) : Camera :=
  c1.clamp_max_x.clamp_max_y.clamp_max_z.clamp_min_x.clamp_min_y.clamp_min_z

/-- `Camera::update_pos` (camera.rs lines 80-110): the four integration
steps followed by bound enforcement. -/
noncomputable def Camera.update_pos (c : Camera) (dt : ℝ) (input : InputState) : Camera :=
  (c.pre_bounds dt input).apply_bounds

/-! # View-projection matrices.  `cgmath::Matrix4::new` takes its sixteen
arguments column-major; the `Matrix.of` literals below list rows, so each
source column appears here as the corresponding column of the row list. -/

/-- The `GL_TO_WGPU` constant (camera.rs lines 22-27): columns
`(1,0,0,0)`, `(0,1,0,0)`, `(0,0,0.5,0)`, `(0,0,0.5,1)`. -/
noncomputable def GL_TO_WGPU : Matrix (Fin 4) (Fin 4) ℝ :=
  Matrix.of ![![1, 0, 0, 0],
              ![0, 1, 0, 0],
              ![0, 0, 0.5, 0.5],
              ![0, 0, 0, 1]]

/-- `cgmath::Matrix4::look_at_rh(eye, center, up)`:
`f = normalize(center - eye)`, `s = normalize(f × up)`, `u = s × f`,
assembled column-major with the translation column
`(-eye·s, -eye·u, eye·f, 1)`. -/
noncomputable def look_at_rh (eye center up : Vec3) : Matrix (Fin 4) (Fin 4) ℝ :=
  let f := normalize3 ⟨center.x - eye.x, center.y - eye.y, center.z - eye.z⟩
  let s := normalize3 (cross3 f up)
  let u := cross3 s f
  Matrix.of ![![s.x, s.y, s.z, -(dot3 eye s)],
              ![u.x, u.y, u.z, -(dot3 eye u)],
              ![-f.x, -f.y, -f.z, dot3 eye f],
              ![0, 0, 0, 1]]

/-- `cgmath::perspective(Deg(fovy), aspect, near, far)`: converts the
angle to radians and builds the right-handed OpenGL-convention projection
with `f = cot(fovy / 2)` (cgmath's `cot = cos / sin`). -/
noncomputable def perspective (fovyDeg aspect near far : ℝ) : Matrix (Fin 4) (Fin 4) ℝ :=
  let f := Real.cos (degToRad fovyDeg / 2) / Real.sin (degToRad fovyDeg / 2)
  Matrix.of ![![f / aspect, 0, 0, 0],
              ![0, f, 0, 0],
              ![0, 0, (far + near) / (near - far), 2 * far * near / (near - far)],
              ![0, 0, -1, 0]]

/-- `Camera::build_view_proj` (camera.rs lines 74-78):
`GL_TO_WGPU * proj * view`. -/
noncomputable def Camera.build_view_proj (c : Camera) : Matrix (Fin 4) (Fin 4) ℝ :=
  let view := look_at_rh c.loc (add3 c.loc c.forward) c.up
  let proj := perspective FOVY c.aspect ZNEAR ZFAR
  GL_TO_WGPU * proj * view

/-! # Look-update invariants (claims about yaw and pitch) -/

@[simp] lemma calc_vecs_yaw (c : Camera) : (c.calc_vecs).yaw = c.yaw := rfl

@[simp] lemma calc_vecs_pitch (c : Camera) : (c.calc_vecs).pitch = c.pitch := rfl

lemma update_look_pitch_mem (c : Camera) (look : ℝ × ℝ) (dt : ℝ) :
    -89.99 ≤ (c.update_look look dt).pitch ∧ (c.update_look look dt).pitch ≤ 89.99 := by
  simp only [Camera.update_look, calc_vecs_pitch]
  split_ifs <;> constructor <;> linarith

/-- C1 counterexample: starting from yaw `0` (as constructed), a mouse
delta of `(-1, 0)` with `dt = 1` drives yaw to `-20`, which the update
snaps to exactly `360`; the claimed strict bound `yaw < 360` fails. -/
theorem update_look_yaw_360_counterexample :
    ((Camera.new ⟨0, 0, 0⟩ 0 0 1).update_look (-1, 0) 1).yaw = 360 ∧
    ¬ ((Camera.new ⟨0, 0, 0⟩ 0 0 1).update_look (-1, 0) 1).yaw < 360 := by
  have hyaw : (Camera.new ⟨0, 0, 0⟩ 0 0 1).yaw = 0 := rfl
  have h360 : ((Camera.new ⟨0, 0, 0⟩ 0 0 1).update_look (-1, 0) 1).yaw = 360 := by
    simp only [Camera.update_look, calc_vecs_yaw, hyaw, SENS]
    norm_num
  exact ⟨h360, by rw [h360]; norm_num⟩

/-- C1 (amended): after `update_look` the yaw always lies in the closed
interval `[0, 360]`; the upper endpoint `360` is attained (a negative yaw
is snapped to `360`, and exactly `360` is left unchanged), so the claimed
half-open interval `[0, 360)` does not hold. -/
theorem update_look_yaw_in_closed_interval (c : Camera) (look : ℝ × ℝ) (dt : ℝ) :
    0 ≤ (c.update_look look dt).yaw ∧ (c.update_look look dt).yaw ≤ 360 := by
  simp only [Camera.update_look, calc_vecs_yaw]
  split_ifs <;> constructor <;> linarith

/-- C5: for any camera whose pitch is already in `[-89.99, 89.99]` (in
fact for any camera at all), any mouse delta and any `dt`, the pitch
after `update_look` is clamped into `[-89.99, 89.99]`. -/
theorem update_look_pitch_clamped (c : Camera) (look : ℝ × ℝ) (dt : ℝ)
    (h1 : -89.99 ≤ c.pitch) (h2 : c.pitch ≤ 89.99) :
    -89.99 ≤ (c.update_look look dt).pitch ∧ (c.update_look look dt).pitch ≤ 89.99 :=
  update_look_pitch_mem c look dt

/-- Witness for C5 at a concrete camera and inputs. -/
theorem update_look_pitch_clamped_witness :
    -89.99 ≤ ((Camera.new ⟨0, 0, 0⟩ 0 0 1).update_look (0, 3) 2).pitch ∧
    ((Camera.new ⟨0, 0, 0⟩ 0 0 1).update_look (0, 3) 2).pitch ≤ 89.99 :=
  update_look_pitch_clamped (Camera.new ⟨0, 0, 0⟩ 0 0 1) (0, 3) 2
    (by rw [show (Camera.new ⟨0, 0, 0⟩ 0 0 1).pitch = 0 from rfl]; norm_num)
    (by rw [show (Camera.new ⟨0, 0, 0⟩ 0 0 1).pitch = 0 from rfl]; norm_num)

/-! # Basis orthonormality after a look update -/

lemma normalize3_of_dot_one (v : Vec3) (h : dot3 v v = 1) : normalize3 v = v := by
  simp [normalize3, mag3, h, Real.sqrt_one]

lemma mag3_eq_of_dot_sq (v : Vec3) (a : ℝ) (ha : 0 ≤ a) (h : dot3 v v = a ^ 2) :
    mag3 v = a := by
  rw [mag3, h, Real.sqrt_sq ha]

lemma cos_degToRad_pos (p : ℝ) (h1 : -89.99 ≤ p) (h2 : p ≤ 89.99) :
    0 < Real.cos (degToRad p) := by
  have hpi := Real.pi_pos
  have h180 : (0 : ℝ) < Real.pi / 180 := by positivity
  have hlo := mul_le_mul_of_nonneg_right h1 h180.le
  have hhi := mul_le_mul_of_nonneg_right h2 h180.le
  refine Real.cos_pos_of_mem_Ioo ⟨?_, ?_⟩ <;> rw [degToRad] <;> nlinarith

lemma calc_vecs_eval (c : Camera) (hp : 0 < Real.cos (degToRad c.pitch)) :
    (c.calc_vecs).forward = forward_of c.yaw c.pitch ∧
    (c.calc_vecs).right =
      ⟨-Real.sin (degToRad c.yaw), 0, Real.cos (degToRad c.yaw)⟩ ∧
    (c.calc_vecs).up =
      ⟨-(Real.cos (degToRad c.yaw) * Real.sin (degToRad c.pitch)),
        Real.cos (degToRad c.pitch),
        -(Real.sin (degToRad c.yaw) * Real.sin (degToRad c.pitch))⟩ := by
  have hy := Real.sin_sq_add_cos_sq (degToRad c.yaw)
  have hpp := Real.sin_sq_add_cos_sq (degToRad c.pitch)
  have hf : dot3 (forward_of c.yaw c.pitch) (forward_of c.yaw c.pitch) = 1 := by
    simp only [forward_of, dot3]
    linear_combination (Real.cos (degToRad c.pitch)) ^ 2 * hy + hpp
  have hcr : cross3 (forward_of c.yaw c.pitch) WORLD_UP =
      ⟨-(Real.sin (degToRad c.yaw) * Real.cos (degToRad c.pitch)), 0,
        Real.cos (degToRad c.yaw) * Real.cos (degToRad c.pitch)⟩ := by
    simp only [cross3, forward_of, WORLD_UP, Vec3.mk.injEq]
    refine ⟨by ring, by ring, by ring⟩
  have hcrd : dot3 (cross3 (forward_of c.yaw c.pitch) WORLD_UP)
      (cross3 (forward_of c.yaw c.pitch) WORLD_UP) =
      (Real.cos (degToRad c.pitch)) ^ 2 := by
    rw [hcr]
    simp only [dot3]
    linear_combination (Real.cos (degToRad c.pitch)) ^ 2 * hy
  have hmagcr : mag3 (cross3 (forward_of c.yaw c.pitch) WORLD_UP) =
      Real.cos (degToRad c.pitch) :=
    mag3_eq_of_dot_sq _ _ hp.le hcrd
  have hrgt : normalize3 (cross3 (forward_of c.yaw c.pitch) WORLD_UP) =
      ⟨-Real.sin (degToRad c.yaw), 0, Real.cos (degToRad c.yaw)⟩ := by
    rw [normalize3, hmagcr, hcr]
    simp only [Vec3.mk.injEq]
    refine ⟨?_, by ring, ?_⟩ <;> field_simp
  have hup : cross3 (⟨-Real.sin (degToRad c.yaw), 0, Real.cos (degToRad c.yaw)⟩ : Vec3)
      (forward_of c.yaw c.pitch) =
      ⟨-(Real.cos (degToRad c.yaw) * Real.sin (degToRad c.pitch)),
        Real.cos (degToRad c.pitch),
        -(Real.sin (degToRad c.yaw) * Real.sin (degToRad c.pitch))⟩ := by
    simp only [cross3, forward_of, Vec3.mk.injEq]
    refine ⟨by ring, by linear_combination Real.cos (degToRad c.pitch) * hy, by ring⟩
  have hupd : dot3
      (⟨-(Real.cos (degToRad c.yaw) * Real.sin (degToRad c.pitch)),
        Real.cos (degToRad c.pitch),
        -(Real.sin (degToRad c.yaw) * Real.sin (degToRad c.pitch))⟩ : Vec3)
      (⟨-(Real.cos (degToRad c.yaw) * Real.sin (degToRad c.pitch)),
        Real.cos (degToRad c.pitch),
        -(Real.sin (degToRad c.yaw) * Real.sin (degToRad c.pitch))⟩ : Vec3) = 1 := by
    simp only [dot3]
    linear_combination (Real.sin (degToRad c.pitch)) ^ 2 * hy + hpp
  refine ⟨?_, ?_, ?_⟩
  · show normalize3 (forward_of c.yaw c.pitch) = forward_of c.yaw c.pitch
    exact normalize3_of_dot_one _ hf
  · exact hrgt
  · show normalize3 (cross3 (normalize3 (cross3 (forward_of c.yaw c.pitch) WORLD_UP))
        (forward_of c.yaw c.pitch)) = _
    rw [hrgt, hup]
    exact normalize3_of_dot_one _ hupd

lemma calc_vecs_orthonormal (c : Camera) (hp : 0 < Real.cos (degToRad c.pitch)) :
    (dot3 (c.calc_vecs).forward (c.calc_vecs).forward = 1 ∧
     dot3 (c.calc_vecs).right (c.calc_vecs).right = 1 ∧
     dot3 (c.calc_vecs).up (c.calc_vecs).up = 1) ∧
    (dot3 (c.calc_vecs).forward (c.calc_vecs).right = 0 ∧
     dot3 (c.calc_vecs).forward (c.calc_vecs).up = 0 ∧
     dot3 (c.calc_vecs).right (c.calc_vecs).up = 0) := by
  obtain ⟨hfwd, hrgt, hup⟩ := calc_vecs_eval c hp
  have hy := Real.sin_sq_add_cos_sq (degToRad c.yaw)
  have hpp := Real.sin_sq_add_cos_sq (degToRad c.pitch)
  rw [hfwd, hrgt, hup]
  simp only [forward_of, dot3]
  refine ⟨⟨?_, ?_, ?_⟩, ?_, ?_, ?_⟩
  · linear_combination (Real.cos (degToRad c.pitch)) ^ 2 * hy + hpp
  · linear_combination hy
  · linear_combination (Real.sin (degToRad c.pitch)) ^ 2 * hy + hpp
  · ring
  · linear_combination
      (-(Real.sin (degToRad c.pitch) * Real.cos (degToRad c.pitch))) * hy
  · ring

lemma update_look_is_calc_vecs (c : Camera) (look : ℝ × ℝ) (dt : ℝ) :
    c.update_look look dt =
      Camera.calc_vecs { c with
        yaw := (c.update_look look dt).yaw
        pitch := (c.update_look look dt).pitch } := rfl

/-- C9: after any `update_look` (whose clamping keeps pitch inside
`[-89.99, 89.99]`, away from the gimbal singularity) the recomputed
`forward`, `right` and `up` vectors are exactly unit length and mutually
orthogonal. -/
theorem update_look_basis_orthonormal (c : Camera) (look : ℝ × ℝ) (dt : ℝ) :
    (dot3 (c.update_look look dt).forward (c.update_look look dt).forward = 1 ∧
     dot3 (c.update_look look dt).right (c.update_look look dt).right = 1 ∧
     dot3 (c.update_look look dt).up (c.update_look look dt).up = 1) ∧
    (dot3 (c.update_look look dt).forward (c.update_look look dt).right = 0 ∧
     dot3 (c.update_look look dt).forward (c.update_look look dt).up = 0 ∧
     dot3 (c.update_look look dt).right (c.update_look look dt).up = 0) := by
  have hpmem := update_look_pitch_mem c look dt
  have hcos : 0 < Real.cos (degToRad (c.update_look look dt).pitch) :=
    cos_degToRad_pos _ hpmem.1 hpmem.2
  rw [update_look_is_calc_vecs c look dt]
  exact calc_vecs_orthonormal _ hcos

/-! # Construction stores yaw and pitch unclamped (claim C10) -/

@[simp] lemma new_yaw (loc : Vec3) (yaw pitch aspect : ℝ) :
    (Camera.new loc yaw pitch aspect).yaw = yaw := rfl

@[simp] lemma new_pitch (loc : Vec3) (yaw pitch aspect : ℝ) :
    (Camera.new loc yaw pitch aspect).pitch = pitch := rfl

/-- C10: `Camera::new` stores yaw and pitch exactly as supplied (no
wrapping, no clamping), and for an initial pitch of exactly `±90`
degrees the unnormalized forward vector of `calc_vecs` is `(0, ±1, 0)`,
i.e. (anti)parallel to `WORLD_UP`; its cross product with `WORLD_UP` is
the zero vector, whose magnitude is `0`, so the `normalize` that
produces the `right` basis vector divides by zero (a NaN in the source's
`f32` arithmetic). -/
theorem new_stores_look_unclamped_and_pitch_90_degenerate
    (loc : Vec3) (yaw pitch aspect : ℝ) :
    ((Camera.new loc yaw pitch aspect).yaw = yaw ∧
     (Camera.new loc yaw pitch aspect).pitch = pitch) ∧
    (forward_of yaw 90 = ⟨0, 1, 0⟩ ∧ forward_of yaw (-90) = ⟨0, -1, 0⟩) ∧
    (cross3 (forward_of yaw 90) WORLD_UP = ⟨0, 0, 0⟩ ∧
     cross3 (forward_of yaw (-90)) WORLD_UP = ⟨0, 0, 0⟩) ∧
    mag3 (cross3 (forward_of yaw 90) WORLD_UP) = 0 := by
  have hdeg : degToRad 90 = Real.pi / 2 := by rw [degToRad]; ring
  have hdegn : degToRad (-90) = -(Real.pi / 2) := by rw [degToRad]; ring
  have hf : forward_of yaw 90 = ⟨0, 1, 0⟩ := by
    simp [forward_of, hdeg, Real.cos_pi_div_two, Real.sin_pi_div_two]
  have hfn : forward_of yaw (-90) = ⟨0, -1, 0⟩ := by
    simp [forward_of, hdegn, Real.cos_pi_div_two, Real.sin_pi_div_two]
  have hc : cross3 (forward_of yaw 90) WORLD_UP = ⟨0, 0, 0⟩ := by
    rw [hf]; simp [cross3, WORLD_UP]
  have hcn : cross3 (forward_of yaw (-90)) WORLD_UP = ⟨0, 0, 0⟩ := by
    rw [hfn]; simp [cross3, WORLD_UP]
  refine ⟨⟨rfl, rfl⟩, ⟨hf, hfn⟩, ⟨hc, hcn⟩, ?_⟩
  rw [hc]
  simp [mag3, dot3, Real.sqrt_zero]

/-! # View-projection claim (C6) -/

/-- Modelled from the spec: the clip-space correction it describes as
`diag(1,1,0.5,0) + translate_z(0.5)` — the diagonal scale part
`diag(1,1,0.5,0)` plus the z-translation contribution of a homogeneous
translation by `0.5` along z (the `0.5` entry in the z-row/w-column and
the homogeneous `1` at the w/w corner). -/
noncomputable def spec_clip_correction : Matrix (Fin 4) (Fin 4) ℝ :=
  Matrix.diagonal ![1, 1, 0.5, 0] +
    Matrix.of ![![0, 0, 0, 0],
                ![0, 0, 0, 0],
                ![0, 0, 0, 0.5],
                ![0, 0, 0, 1]]

/-- C6: `build_view_proj` is exactly `clip_correction * proj * view` with
`view = look_at_rh(loc, loc + forward, up)` and
`proj = perspective(FOVY, aspect, ZNEAR, ZFAR)`; the correction constant
equals the spec's `diag(1,1,0.5,0) + translate_z(0.5)` matrix, and on
homogeneous points it fixes x and y and maps `z ↦ 0.5 z + 0.5`, taking
the OpenGL clip volume `z ∈ [-1, 1]` to the wgpu clip volume
`z ∈ [0, 1]`. -/
theorem build_view_proj_formula (c : Camera) :
    c.build_view_proj =
      spec_clip_correction * perspective FOVY c.aspect ZNEAR ZFAR *
        look_at_rh c.loc (add3 c.loc c.forward) c.up ∧
    GL_TO_WGPU = spec_clip_correction ∧
    (∀ x y z : ℝ, GL_TO_WGPU.mulVec ![x, y, z, 1] = ![x, y, 0.5 * z + 0.5, 1]) := by
  have hmat : GL_TO_WGPU = spec_clip_correction := by
    ext i j
    fin_cases i <;> fin_cases j <;>
      simp [GL_TO_WGPU, spec_clip_correction, Matrix.diagonal,
        Matrix.vecHead, Matrix.vecTail]
  refine ⟨?_, hmat, ?_⟩
  · rw [Camera.build_view_proj, hmat]
  · intro x y z
    funext i
    fin_cases i <;>
      simp [GL_TO_WGPU, Matrix.mulVec, Matrix.dotProduct, Fin.sum_univ_four]

/-! # Component lemmas for the position/velocity pipeline -/

@[simp] lemma update_acc_vel (c : Camera) (i : InputState) :
    (c.update_acc i).vel = c.vel := rfl

@[simp] lemma update_acc_loc (c : Camera) (i : InputState) :
    (c.update_acc i).loc = c.loc := rfl

@[simp] lemma update_acc_forward (c : Camera) (i : InputState) :
    (c.update_acc i).forward = c.forward := rfl

@[simp] lemma update_acc_right (c : Camera) (i : InputState) :
    (c.update_acc i).right = c.right := rfl

@[simp] lemma update_acc_speed (c : Camera) (i : InputState) :
    (c.update_acc i).speed = c.speed := rfl

@[simp] lemma vel_integrate_loc (c : Camera) (dt : ℝ) :
    (c.vel_integrate dt).loc = c.loc := rfl

@[simp] lemma vel_integrate_acc (c : Camera) (dt : ℝ) :
    (c.vel_integrate dt).acc = c.acc := rfl

@[simp] lemma vel_integrate_forward (c : Camera) (dt : ℝ) :
    (c.vel_integrate dt).forward = c.forward := rfl

@[simp] lemma vel_integrate_right (c : Camera) (dt : ℝ) :
    (c.vel_integrate dt).right = c.right := rfl

@[simp] lemma vel_integrate_speed (c : Camera) (dt : ℝ) :
    (c.vel_integrate dt).speed = c.speed := rfl

@[simp] lemma vel_friction_loc (c : Camera) (dt : ℝ) :
    (c.vel_friction dt).loc = c.loc := rfl

@[simp] lemma vel_friction_acc (c : Camera) (dt : ℝ) :
    (c.vel_friction dt).acc = c.acc := rfl

@[simp] lemma vel_friction_speed (c : Camera) (dt : ℝ) :
    (c.vel_friction dt).speed = c.speed := rfl

@[simp] lemma update_speed_vel (c : Camera) (dt : ℝ) (i : InputState) :
    (c.update_speed dt i).vel = c.vel := rfl

@[simp] lemma update_speed_loc (c : Camera) (dt : ℝ) (i : InputState) :
    (c.update_speed dt i).loc = c.loc := rfl

@[simp] lemma update_loc_vel (c : Camera) (dt : ℝ) :
    (c.update_loc dt).vel = c.vel := rfl

lemma update_loc_loc_x (c : Camera) (dt : ℝ) :
    (c.update_loc dt).loc.x = c.loc.x + c.speed * c.vel.x * dt := rfl

/-- The velocity components of `vel_integrate`, written out. -/
lemma vel_integrate_vel (c : Camera) (dt : ℝ) :
    (c.vel_integrate dt).vel =
      ⟨c.vel.x + c.acc.x * (normalize3 ⟨c.forward.x, 0, c.forward.z⟩).x * dt
          + c.acc.z * (normalize3 ⟨c.right.x, 0, c.right.z⟩).x * dt,
        c.vel.y + c.acc.y * dt,
        c.vel.z + c.acc.x * (normalize3 ⟨c.forward.x, 0, c.forward.z⟩).z * dt
          + c.acc.z * (normalize3 ⟨c.right.x, 0, c.right.z⟩).z * dt⟩ := rfl

/-! # Bound enforcement (claim C2) -/

lemma min_lt_max_x : MIN_POS.x < MAX_POS.x := by
  norm_num [MIN_POS, MAX_POS, BORDER_SPACE, INSTANCED_ROWS, INSTANCE_SPACING]

lemma min_lt_max_y : MIN_POS.y < MAX_POS.y := by
  norm_num [MIN_POS, MAX_POS, BORDER_SPACE]

lemma min_lt_max_z : MIN_POS.z < MAX_POS.z := by
  norm_num [MIN_POS, MAX_POS, BORDER_SPACE, INSTANCED_COLS, INSTANCE_SPACING]

lemma clamp_max_x_loc_x (c : Camera) :
    (c.clamp_max_x).loc.x = if c.loc.x > MAX_POS.x then MAX_POS.x else c.loc.x := by
  unfold Camera.clamp_max_x; split_ifs <;> rfl

lemma clamp_max_x_vel_x (c : Camera) :
    (c.clamp_max_x).vel.x = if c.loc.x > MAX_POS.x then -c.vel.x else c.vel.x := by
  unfold Camera.clamp_max_x; split_ifs <;> rfl

lemma clamp_max_x_other (c : Camera) :
    (c.clamp_max_x).loc.y = c.loc.y ∧ (c.clamp_max_x).loc.z = c.loc.z ∧
    (c.clamp_max_x).vel.y = c.vel.y ∧ (c.clamp_max_x).vel.z = c.vel.z := by
  unfold Camera.clamp_max_x; split_ifs <;> exact ⟨rfl, rfl, rfl, rfl⟩

lemma clamp_max_y_loc_y (c : Camera) :
    (c.clamp_max_y).loc.y = if c.loc.y > MAX_POS.y then MAX_POS.y else c.loc.y := by
  unfold Camera.clamp_max_y; split_ifs <;> rfl

lemma clamp_max_y_vel_y (c : Camera) :
    (c.clamp_max_y).vel.y = if c.loc.y > MAX_POS.y then -c.vel.y else c.vel.y := by
  unfold Camera.clamp_max_y; split_ifs <;> rfl

lemma clamp_max_y_other (c : Camera) :
    (c.clamp_max_y).loc.x = c.loc.x ∧ (c.clamp_max_y).loc.z = c.loc.z ∧
    (c.clamp_max_y).vel.x = c.vel.x ∧ (c.clamp_max_y).vel.z = c.vel.z := by
  unfold Camera.clamp_max_y; split_ifs <;> exact ⟨rfl, rfl, rfl, rfl⟩

lemma clamp_max_z_loc_z (c : Camera) :
    (c.clamp_max_z).loc.z = if c.loc.z > MAX_POS.z then MAX_POS.z else c.loc.z := by
  unfold Camera.clamp_max_z; split_ifs <;> rfl

lemma clamp_max_z_vel_z (c : Camera) :
    (c.clamp_max_z).vel.z = if c.loc.z > MAX_POS.z then -c.vel.z else c.vel.z := by
  unfold Camera.clamp_max_z; split_ifs <;> rfl

lemma clamp_max_z_other (c : Camera) :
    (c.clamp_max_z).loc.x = c.loc.x ∧ (c.clamp_max_z).loc.y = c.loc.y ∧
    (c.clamp_max_z).vel.x = c.vel.x ∧ (c.clamp_max_z).vel.y = c.vel.y := by
  unfold Camera.clamp_max_z; split_ifs <;> exact ⟨rfl, rfl, rfl, rfl⟩

lemma clamp_min_x_loc_x (c : Camera) :
    (c.clamp_min_x).loc.x = if c.loc.x < MIN_POS.x then MIN_POS.x else c.loc.x := by
  unfold Camera.clamp_min_x; split_ifs <;> rfl

lemma clamp_min_x_vel_x (c : Camera) :
    (c.clamp_min_x).vel.x = if c.loc.x < MIN_POS.x then -c.vel.x else c.vel.x := by
  unfold Camera.clamp_min_x; split_ifs <;> rfl

lemma clamp_min_x_other (c : Camera) :
    (c.clamp_min_x).loc.y = c.loc.y ∧ (c.clamp_min_x).loc.z = c.loc.z ∧
    (c.clamp_min_x).vel.y = c.vel.y ∧ (c.clamp_min_x).vel.z = c.vel.z := by
  unfold Camera.clamp_min_x; split_ifs <;> exact ⟨rfl, rfl, rfl, rfl⟩

lemma clamp_min_y_loc_y (c : Camera) :
    (c.clamp_min_y).loc.y = if c.loc.y < MIN_POS.y then MIN_POS.y else c.loc.y := by
  unfold Camera.clamp_min_y; split_ifs <;> rfl

lemma clamp_min_y_vel_y (c : Camera) :
    (c.clamp_min_y).vel.y = if c.loc.y < MIN_POS.y then -c.vel.y else c.vel.y := by
  unfold Camera.clamp_min_y; split_ifs <;> rfl

lemma clamp_min_y_other (c : Camera) :
    (c.clamp_min_y).loc.x = c.loc.x ∧ (c.clamp_min_y).loc.z = c.loc.z ∧
    (c.clamp_min_y).vel.x = c.vel.x ∧ (c.clamp_min_y).vel.z = c.vel.z := by
  unfold Camera.clamp_min_y; split_ifs <;> exact ⟨rfl, rfl, rfl, rfl⟩

lemma clamp_min_z_loc_z (c : Camera) :
    (c.clamp_min_z).loc.z = if c.loc.z < MIN_POS.z then MIN_POS.z else c.loc.z := by
  unfold Camera.clamp_min_z; split_ifs <;> rfl

lemma clamp_min_z_vel_z (c : Camera) :
    (c.clamp_min_z).vel.z = if c.loc.z < MIN_POS.z then -c.vel.z else c.vel.z := by
  unfold Camera.clamp_min_z; split_ifs <;> rfl

lemma clamp_min_z_other (c : Camera) :
    (c.clamp_min_z).loc.x = c.loc.x ∧ (c.clamp_min_z).loc.y = c.loc.y ∧
    (c.clamp_min_z).vel.x = c.vel.x ∧ (c.clamp_min_z).vel.y = c.vel.y := by
  unfold Camera.clamp_min_z; split_ifs <;> exact ⟨rfl, rfl, rfl, rfl⟩

lemma apply_bounds_x (m : Camera) :
    (m.loc.x > MAX_POS.x →
      (m.apply_bounds).loc.x = MAX_POS.x ∧ (m.apply_bounds).vel.x = -m.vel.x) ∧
    (m.loc.x < MIN_POS.x →
      (m.apply_bounds).loc.x = MIN_POS.x ∧ (m.apply_bounds).vel.x = -m.vel.x) := by
  have hx := min_lt_max_x
  simp only [Camera.apply_bounds, clamp_min_z_other, clamp_min_y_other,
    clamp_min_x_loc_x, clamp_min_x_vel_x, clamp_max_z_other,
    clamp_max_y_other, clamp_max_x_loc_x, clamp_max_x_vel_x]
  constructor <;> intro h <;> split_ifs <;>
    first | exact ⟨rfl, rfl⟩ | exfalso; linarith

lemma apply_bounds_y (m : Camera) :
    (m.loc.y > MAX_POS.y →
      (m.apply_bounds).loc.y = MAX_POS.y ∧ (m.apply_bounds).vel.y = -m.vel.y) ∧
    (m.loc.y < MIN_POS.y →
      (m.apply_bounds).loc.y = MIN_POS.y ∧ (m.apply_bounds).vel.y = -m.vel.y) := by
  have hy := min_lt_max_y
  simp only [Camera.apply_bounds, clamp_min_z_other, clamp_min_y_loc_y,
    clamp_min_y_vel_y, clamp_min_x_other, clamp_max_z_other,
    clamp_max_y_loc_y, clamp_max_y_vel_y, clamp_max_x_other]
  constructor <;> intro h <;> split_ifs <;>
    first | exact ⟨rfl, rfl⟩ | exfalso; linarith

lemma apply_bounds_z (m : Camera) :
    (m.loc.z > MAX_POS.z →
      (m.apply_bounds).loc.z = MAX_POS.z ∧ (m.apply_bounds).vel.z = -m.vel.z) ∧
    (m.loc.z < MIN_POS.z →
      (m.apply_bounds).loc.z = MIN_POS.z ∧ (m.apply_bounds).vel.z = -m.vel.z) := by
  have hz := min_lt_max_z
  simp only [Camera.apply_bounds, clamp_min_z_loc_z, clamp_min_z_vel_z,
    clamp_min_y_other, clamp_min_x_other, clamp_max_z_loc_z,
    clamp_max_z_vel_z, clamp_max_y_other, clamp_max_x_other]
  constructor <;> intro h <;> split_ifs <;>
    first | exact ⟨rfl, rfl⟩ | exfalso; linarith

/-! # Friction-branch lemmas for `vel_friction` -/

lemma vel_friction_idle_skip (c : Camera) (dt : ℝ)
    (hax : c.acc.x = 0) (haz : c.acc.z = 0) (hv : c.vel.x = 0 ∨ c.vel.z = 0) :
    (c.vel_friction dt).vel.x = c.vel.x ∧ (c.vel_friction dt).vel.z = c.vel.z := by
  have h1 : ¬ (c.acc.x = 0 ∧ c.acc.z ≠ 0) := fun h => h.2 haz
  have h2 : ¬ (c.acc.x ≠ 0 ∧ c.acc.z = 0) := fun h => h.1 hax
  have h3 : ¬ (c.acc.x = 0 ∧ c.acc.z = 0 ∧
      (⟨c.vel.x, c.vel.z⟩ : Vec2).x ≠ 0 ∧ (⟨c.vel.x, c.vel.z⟩ : Vec2).y ≠ 0) := by
    rcases hv with h0 | h0
    · exact fun h => h.2.2.1 h0
    · exact fun h => h.2.2.2 h0
  simp only [Camera.vel_friction]
  rw [if_neg h1, if_neg h2, if_neg h3]
  exact ⟨rfl, rfl⟩

lemma vel_friction_idle_decay (c : Camera) (dt : ℝ)
    (hax : c.acc.x = 0) (haz : c.acc.z = 0) (hvx : c.vel.x ≠ 0) (hvz : c.vel.z ≠ 0) :
    (c.vel_friction dt).vel.x =
      (normalize_to2 ⟨c.vel.x, c.vel.z⟩
        (max (mag2 ⟨c.vel.x, c.vel.z⟩ - dt * DEACCELERATION) 0)).x ∧
    (c.vel_friction dt).vel.z =
      (normalize_to2 ⟨c.vel.x, c.vel.z⟩
        (max (mag2 ⟨c.vel.x, c.vel.z⟩ - dt * DEACCELERATION) 0)).y := by
  have h1 : ¬ (c.acc.x = 0 ∧ c.acc.z ≠ 0) := fun h => h.2 haz
  have h2 : ¬ (c.acc.x ≠ 0 ∧ c.acc.z = 0) := fun h => h.1 hax
  have h3 : c.acc.x = 0 ∧ c.acc.z = 0 ∧
      (⟨c.vel.x, c.vel.z⟩ : Vec2).x ≠ 0 ∧ (⟨c.vel.x, c.vel.z⟩ : Vec2).y ≠ 0 :=
    ⟨hax, haz, hvx, hvz⟩
  simp only [Camera.vel_friction]
  rw [if_neg h1, if_neg h2, if_pos h3]
  exact ⟨rfl, rfl⟩

lemma vel_friction_vel_y (c : Camera) (dt : ℝ) (hay : c.acc.y = 0) :
    (c.vel_friction dt).vel.y = step c.vel.y 0 (dt * DEACCELERATION) := by
  simp only [Camera.vel_friction]
  rw [if_pos hay]

/-! # Claim C2: elastic bounce at the world bounds -/

/-- C2: for every axis and every camera state, if the position produced
by the integration part of `update_pos` (`pre_bounds`) exceeds the
maximum bound on that axis (or falls below the minimum), then
`update_pos` yields position exactly at that bound with the velocity
component negated relative to the integrated velocity. -/
theorem update_pos_bounce (c : Camera) (dt : ℝ) (input : InputState) :
    ((c.pre_bounds dt input).loc.x > MAX_POS.x →
      (c.update_pos dt input).loc.x = MAX_POS.x ∧
      (c.update_pos dt input).vel.x = -(c.pre_bounds dt input).vel.x) ∧
    ((c.pre_bounds dt input).loc.x < MIN_POS.x →
      (c.update_pos dt input).loc.x = MIN_POS.x ∧
      (c.update_pos dt input).vel.x = -(c.pre_bounds dt input).vel.x) ∧
    ((c.pre_bounds dt input).loc.y > MAX_POS.y →
      (c.update_pos dt input).loc.y = MAX_POS.y ∧
      (c.update_pos dt input).vel.y = -(c.pre_bounds dt input).vel.y) ∧
    ((c.pre_bounds dt input).loc.y < MIN_POS.y →
      (c.update_pos dt input).loc.y = MIN_POS.y ∧
      (c.update_pos dt input).vel.y = -(c.pre_bounds dt input).vel.y) ∧
    ((c.pre_bounds dt input).loc.z > MAX_POS.z →
      (c.update_pos dt input).loc.z = MAX_POS.z ∧
      (c.update_pos dt input).vel.z = -(c.pre_bounds dt input).vel.z) ∧
    ((c.pre_bounds dt input).loc.z < MIN_POS.z →
      (c.update_pos dt input).loc.z = MIN_POS.z ∧
      (c.update_pos dt input).vel.z = -(c.pre_bounds dt input).vel.z) :=
  ⟨(apply_bounds_x (c.pre_bounds dt input)).1,
   (apply_bounds_x (c.pre_bounds dt input)).2,
   (apply_bounds_y (c.pre_bounds dt input)).1,
   (apply_bounds_y (c.pre_bounds dt input)).2,
   (apply_bounds_z (c.pre_bounds dt input)).1,
   (apply_bounds_z (c.pre_bounds dt input)).2⟩

/-- A concrete camera resting exactly on the maximum x bound, moving in
+x with unit velocity, carrying the yaw-0/pitch-0 basis and walk speed. -/
noncomputable def bounceCam : Camera :=
  { loc := ⟨MAX_POS.x, 0, 0⟩
    vel := ⟨1, 0, 0⟩
    acc := ⟨0, 0, 0⟩
    forward := ⟨1, 0, 0⟩
    up := ⟨0, 1, 0⟩
    right := ⟨0, 0, 1⟩
    yaw := 0
    pitch := 0
    aspect := 1
    speed := 5 }

/-- Witness for C2, the spec's own scenario: starting at exactly the
maximum x bound with positive x velocity and `dt = 1 > 0` and no keys
held, one `update_pos` leaves the position clamped at the bound and the
velocity negated. -/
theorem update_pos_bounce_witness :
    (bounceCam.update_pos 1 InputState.new).loc.x = MAX_POS.x ∧
    (bounceCam.update_pos 1 InputState.new).vel.x = -1 := by
  have hacc : (bounceCam.update_acc InputState.new).acc = ⟨0, 0, 0⟩ := rfl
  have hvel0 : (bounceCam.update_acc InputState.new).vel = ⟨1, 0, 0⟩ := rfl
  have hvi : ((bounceCam.update_acc InputState.new).vel_integrate 1).vel.x = 1 ∧
      ((bounceCam.update_acc InputState.new).vel_integrate 1).vel.z = 0 := by
    rw [vel_integrate_vel, hacc, hvel0]
    constructor <;> simp
  have hvfr := vel_friction_idle_skip
    ((bounceCam.update_acc InputState.new).vel_integrate 1) 1
    (by rw [vel_integrate_acc, hacc]) (by rw [vel_integrate_acc, hacc])
    (Or.inr hvi.2)
  have hvx : ((bounceCam.update_acc InputState.new).update_vel 1).vel.x = 1 := by
    rw [Camera.update_vel, hvfr.1, hvi.1]
  have hspd : (((bounceCam.update_acc InputState.new).update_vel 1).update_speed
      1 InputState.new).speed = 5 := by
    have hs5 : ((bounceCam.update_acc InputState.new).update_vel 1).speed = 5 := rfl
    have hcond : ¬ (InputState.new.ctrl_pressed = true ∧
        InputState.new.movement_key_pressed = true) := by decide
    simp only [Camera.update_speed]
    rw [if_neg hcond, hs5]
    norm_num [SPRINT_SPEED, WALK_SPEED]
  have hlx : (bounceCam.pre_bounds 1 InputState.new).loc.x = MAX_POS.x + 5 := by
    have hl0 : (((bounceCam.update_acc InputState.new).update_vel 1).update_speed
        1 InputState.new).loc.x = MAX_POS.x := rfl
    have hv0 : (((bounceCam.update_acc InputState.new).update_vel 1).update_speed
        1 InputState.new).vel.x = 1 := by rw [update_speed_vel, hvx]
    rw [Camera.pre_bounds, update_loc_loc_x, hl0, hv0, hspd]
    norm_num
  have hvx2 : (bounceCam.pre_bounds 1 InputState.new).vel.x = 1 := by
    rw [Camera.pre_bounds, update_loc_vel, update_speed_vel, hvx]
  have hgt : (bounceCam.pre_bounds 1 InputState.new).loc.x > MAX_POS.x := by
    rw [hlx]; linarith
  have key := (update_pos_bounce bounceCam 1 InputState.new).1 hgt
  rw [hvx2] at key
  exact key

/-! # Claim C3: idle velocity decay -/

lemma abs_step_to_zero (x amp : ℝ) :
    |step x 0 amp| = max (|x| - amp) 0 := by
  simp only [step]
  split_ifs with h1 h2 h3
  · rw [abs_zero, abs_of_neg h1, max_eq_right (by linarith)]
  · rw [abs_of_nonpos (by linarith), abs_of_neg h1, max_eq_left (by linarith)]
    ring
  · rw [abs_zero, abs_of_nonneg (le_of_not_lt h1), max_eq_right (by linarith)]
  · rw [abs_of_nonneg (by linarith), abs_of_nonneg (le_of_not_lt h1),
      max_eq_left (by linarith)]

lemma mag2_pos_of_ne (v : Vec2) (hx : v.x ≠ 0) : 0 < mag2 v := by
  rw [mag2]
  apply Real.sqrt_pos.mpr
  have hx2 : 0 < v.x * v.x := mul_self_pos.mpr hx
  rw [dot2]
  nlinarith [mul_self_nonneg v.y]

lemma mag2_normalize_to (v : Vec2) (len : ℝ) (hlen : 0 ≤ len) (hv : mag2 v ≠ 0) :
    mag2 (normalize_to2 v len) = len := by
  have hm0 : 0 ≤ mag2 v := Real.sqrt_nonneg _
  rw [normalize_to2, mag2, dot2]
  have hring : v.x * (len / mag2 v) * (v.x * (len / mag2 v)) +
      v.y * (len / mag2 v) * (v.y * (len / mag2 v)) =
      (len / mag2 v) ^ 2 * (v.x * v.x + v.y * v.y) := by ring
  rw [hring, Real.sqrt_mul (sq_nonneg _), Real.sqrt_sq_eq_abs]
  have hd : Real.sqrt (v.x * v.x + v.y * v.y) = mag2 v := rfl
  rw [hd, abs_of_nonneg (div_nonneg hlen hm0), div_mul_cancel₀ _ hv]

/-- C3 (amended): when all acceleration components are zero and both
horizontal velocity components are nonzero, one `update_vel` step shrinks
the horizontal speed by exactly `dt * DEACCELERATION`, floored at zero
(never overshooting past zero), and the vertical speed likewise.  (When
exactly one horizontal component is zero the decay branch is skipped
entirely, and with a nonzero strafe acceleration a world-axis component
can grow — see the counterexample.) -/
theorem update_vel_idle_decay (c : Camera) (dt : ℝ) (hdt : 0 ≤ dt)
    (hax : c.acc.x = 0) (hay : c.acc.y = 0) (haz : c.acc.z = 0)
    (hvx : c.vel.x ≠ 0) (hvz : c.vel.z ≠ 0) :
    mag2 ⟨(c.update_vel dt).vel.x, (c.update_vel dt).vel.z⟩ =
      max (mag2 ⟨c.vel.x, c.vel.z⟩ - dt * DEACCELERATION) 0 ∧
    |(c.update_vel dt).vel.y| = max (|c.vel.y| - dt * DEACCELERATION) 0 := by
  have hvi : (c.vel_integrate dt).vel = c.vel := by
    rw [vel_integrate_vel, hax, hay, haz]
    simp
  have hax' : (c.vel_integrate dt).acc.x = 0 := by rw [vel_integrate_acc]; exact hax
  have hay' : (c.vel_integrate dt).acc.y = 0 := by rw [vel_integrate_acc]; exact hay
  have haz' : (c.vel_integrate dt).acc.z = 0 := by rw [vel_integrate_acc]; exact haz
  have hvx' : (c.vel_integrate dt).vel.x ≠ 0 := by rw [hvi]; exact hvx
  have hvz' : (c.vel_integrate dt).vel.z ≠ 0 := by rw [hvi]; exact hvz
  have hdecay := vel_friction_idle_decay (c.vel_integrate dt) dt hax' haz' hvx' hvz'
  have hy := vel_friction_vel_y (c.vel_integrate dt) dt hay'
  have hmagpos : 0 < mag2 ⟨c.vel.x, c.vel.z⟩ :=
    mag2_pos_of_ne ⟨c.vel.x, c.vel.z⟩ hvx
  constructor
  · rw [Camera.update_vel, hdecay.1, hdecay.2, hvi]
    have : (⟨(normalize_to2 ⟨c.vel.x, c.vel.z⟩
        (max (mag2 ⟨c.vel.x, c.vel.z⟩ - dt * DEACCELERATION) 0)).x,
        (normalize_to2 ⟨c.vel.x, c.vel.z⟩
        (max (mag2 ⟨c.vel.x, c.vel.z⟩ - dt * DEACCELERATION) 0)).y⟩ : Vec2) =
        normalize_to2 ⟨c.vel.x, c.vel.z⟩
          (max (mag2 ⟨c.vel.x, c.vel.z⟩ - dt * DEACCELERATION) 0) := rfl
    rw [this, mag2_normalize_to _ _ (le_max_right _ _) (ne_of_gt hmagpos)]
  · rw [Camera.update_vel, hy, hvi, abs_step_to_zero]

/-- Witness camera for the amended idle-decay theorem: velocity
`(3, 2, 4)` (horizontal speed 5), zero acceleration. -/
noncomputable def idleCam : Camera :=
  { loc := ⟨0, 0, 0⟩
    vel := ⟨3, 2, 4⟩
    acc := ⟨0, 0, 0⟩
    forward := ⟨1, 0, 0⟩
    up := ⟨0, 1, 0⟩
    right := ⟨0, 0, 1⟩
    yaw := 0
    pitch := 0
    aspect := 1
    speed := 5 }

/-- Witness for C3's amended theorem at `idleCam` with `dt = 1`. -/
theorem update_vel_idle_decay_witness :
    mag2 ⟨(idleCam.update_vel 1).vel.x, (idleCam.update_vel 1).vel.z⟩ =
      max (mag2 ⟨idleCam.vel.x, idleCam.vel.z⟩ - 1 * DEACCELERATION) 0 ∧
    |(idleCam.update_vel 1).vel.y| = max (|idleCam.vel.y| - 1 * DEACCELERATION) 0 :=
  update_vel_idle_decay idleCam 1 (by norm_num) rfl rfl rfl
    (by simp only [show idleCam.vel.x = (3 : ℝ) from rfl]; norm_num)
    (by simp only [show idleCam.vel.z = (4 : ℝ) from rfl]; norm_num)

/-! # The zero-magnitude friction-nudge branch (claims C3 and C4) -/

lemma normalize3_e1 : normalize3 ⟨1, 0, 0⟩ = ⟨1, 0, 0⟩ := by
  have hm : mag3 (⟨1, 0, 0⟩ : Vec3) = 1 := by
    rw [mag3]
    norm_num [dot3]
  simp [normalize3, hm]

lemma normalize3_e3 : normalize3 ⟨0, 0, 1⟩ = ⟨0, 0, 1⟩ := by
  have hm : mag3 (⟨0, 0, 1⟩ : Vec3) = 1 := by
    rw [mag3]
    norm_num [dot3]
  simp [normalize3, hm]

lemma normalize3_ne1 : normalize3 ⟨-1, 0, 0⟩ = ⟨-1, 0, 0⟩ := by
  have hm : mag3 (⟨-1, 0, 0⟩ : Vec3) = 1 := by
    rw [mag3]
    norm_num [dot3]
  simp [normalize3, hm]

/-- When `acc.x = 0`, `acc.z ≠ 0` and the 2D dot product between the
normalized horizontal forward vector and the (already integrated) 2D
velocity is zero, the angle test computes `arccos` of `0` (this covers
the division-by-zero case of a zero-magnitude velocity, where the IEEE
computation yields NaN and the comparison is likewise false), which is
not greater than a right angle, so the `else` branch subtracts the
forward nudge — the nudge is *not* skipped. -/
lemma vel_friction_nudge_x_of_dot_zero (c : Camera) (dt : ℝ)
    (hax : c.acc.x = 0) (haz : c.acc.z ≠ 0)
    (hdot : dot2 ⟨(normalize3 ⟨c.forward.x, 0, c.forward.z⟩).x,
        (normalize3 ⟨c.forward.x, 0, c.forward.z⟩).z⟩ ⟨c.vel.x, c.vel.z⟩ = 0) :
    (c.vel_friction dt).vel.x =
      c.vel.x - (normalize3 ⟨c.forward.x, 0, c.forward.z⟩).x * (dt * DEACCELERATION) ∧
    (c.vel_friction dt).vel.z =
      c.vel.z - (normalize3 ⟨c.forward.x, 0, c.forward.z⟩).z * (dt * DEACCELERATION) := by
  have h1 : c.acc.x = 0 ∧ c.acc.z ≠ 0 := ⟨hax, haz⟩
  have hth : ¬ (Real.arccos (dot2 ⟨(normalize3 ⟨c.forward.x, 0, c.forward.z⟩).x,
      (normalize3 ⟨c.forward.x, 0, c.forward.z⟩).z⟩ ⟨c.vel.x, c.vel.z⟩ /
        (mag2 ⟨(normalize3 ⟨c.forward.x, 0, c.forward.z⟩).x,
          (normalize3 ⟨c.forward.x, 0, c.forward.z⟩).z⟩ * mag2 ⟨c.vel.x, c.vel.z⟩)) >
      RIGHT_ANGLE) := by
    rw [hdot, zero_div, Real.arccos_zero, RIGHT_ANGLE]
    exact lt_irrefl _
  simp only [Camera.vel_friction]
  rw [if_pos h1, if_neg hth]
  exact ⟨rfl, rfl⟩

/-- Camera used to refute the per-axis reading of idle decay: yaw-90
basis (`forward = (0,0,1)`, `right = (-1,0,0)`), x velocity `1`,
commanded strafe acceleration `acc.z = -10`, `acc.x = 0`. -/
noncomputable def c3Cam : Camera :=
  { loc := ⟨0, 0, 0⟩
    vel := ⟨1, 0, 0⟩
    acc := ⟨0, 0, -10⟩
    forward := ⟨0, 0, 1⟩
    up := ⟨0, 1, 0⟩
    right := ⟨-1, 0, 0⟩
    yaw := 90
    pitch := 0
    aspect := 1
    speed := 5 }

lemma c3Cam_vel_integrate_eval : (c3Cam.vel_integrate 1).vel = ⟨11, 0, 0⟩ := by
  have hfc : (⟨c3Cam.forward.x, 0, c3Cam.forward.z⟩ : Vec3) = ⟨0, 0, 1⟩ := rfl
  have hrc : (⟨c3Cam.right.x, 0, c3Cam.right.z⟩ : Vec3) = ⟨-1, 0, 0⟩ := rfl
  rw [vel_integrate_vel, hfc, hrc, normalize3_e3, normalize3_ne1]
  simp only [show c3Cam.vel.x = (1 : ℝ) from rfl, show c3Cam.vel.y = (0 : ℝ) from rfl,
    show c3Cam.vel.z = (0 : ℝ) from rfl, show c3Cam.acc.x = (0 : ℝ) from rfl,
    show c3Cam.acc.y = (0 : ℝ) from rfl, show c3Cam.acc.z = (-10 : ℝ) from rfl]
  norm_num [Vec3.mk.injEq]

/-- C3 counterexample: with `acc.x = 0`, `vel.x = 1 ≠ 0` and `dt = 1 > 0`
(but a nonzero strafe acceleration `acc.z`), one `update_vel` step grows
the x-axis velocity magnitude from `1` to `11` — the per-axis idle-decay
claim fails. -/
theorem update_vel_idle_decay_counterexample :
    c3Cam.acc.x = 0 ∧ c3Cam.vel.x ≠ 0 ∧ (0 : ℝ) < 1 ∧
    (c3Cam.update_vel 1).vel.x = 11 ∧
    ¬ |(c3Cam.update_vel 1).vel.x| ≤ |c3Cam.vel.x| := by
  have hB := c3Cam_vel_integrate_eval
  have hax : (c3Cam.vel_integrate 1).acc.x = 0 := rfl
  have haz : (c3Cam.vel_integrate 1).acc.z ≠ 0 := by
    rw [vel_integrate_acc]
    simp only [show c3Cam.acc.z = (-10 : ℝ) from rfl]
    norm_num
  have hfwd : (⟨(c3Cam.vel_integrate 1).forward.x, 0,
      (c3Cam.vel_integrate 1).forward.z⟩ : Vec3) = ⟨0, 0, 1⟩ := rfl
  have hdot : dot2 ⟨(normalize3 ⟨(c3Cam.vel_integrate 1).forward.x, 0,
      (c3Cam.vel_integrate 1).forward.z⟩).x,
      (normalize3 ⟨(c3Cam.vel_integrate 1).forward.x, 0,
      (c3Cam.vel_integrate 1).forward.z⟩).z⟩
      ⟨(c3Cam.vel_integrate 1).vel.x, (c3Cam.vel_integrate 1).vel.z⟩ = 0 := by
    rw [hfwd, normalize3_e3, hB]
    norm_num [dot2]
  have hnudge := vel_friction_nudge_x_of_dot_zero (c3Cam.vel_integrate 1) 1 hax haz hdot
  have hvx : (c3Cam.update_vel 1).vel.x = 11 := by
    rw [Camera.update_vel, hnudge.1, hfwd, normalize3_e3, hB]
    norm_num
  refine ⟨rfl, ?_, by norm_num, hvx, ?_⟩
  · simp only [show c3Cam.vel.x = (1 : ℝ) from rfl]
    norm_num
  · rw [hvx]
    simp only [show c3Cam.vel.x = (1 : ℝ) from rfl]
    norm_num

/-! # Claim C4: zero-magnitude velocity in the friction-nudge branch -/

/-- Camera whose integrated horizontal velocity lands exactly on zero
while only the strafe acceleration is nonzero: `vel = (0,0,-10)`,
`acc = (0,0,10)`, yaw-0 basis. -/
noncomputable def c4Cam : Camera :=
  { loc := ⟨0, 0, 0⟩
    vel := ⟨0, 0, -10⟩
    acc := ⟨0, 0, 10⟩
    forward := ⟨1, 0, 0⟩
    up := ⟨0, 1, 0⟩
    right := ⟨0, 0, 1⟩
    yaw := 0
    pitch := 0
    aspect := 1
    speed := 5 }

lemma c4Cam_vel_integrate_eval : (c4Cam.vel_integrate 1).vel = ⟨0, 0, 0⟩ := by
  have hfc : (⟨c4Cam.forward.x, 0, c4Cam.forward.z⟩ : Vec3) = ⟨1, 0, 0⟩ := rfl
  have hrc : (⟨c4Cam.right.x, 0, c4Cam.right.z⟩ : Vec3) = ⟨0, 0, 1⟩ := rfl
  rw [vel_integrate_vel, hfc, hrc, normalize3_e1, normalize3_e3]
  simp only [show c4Cam.vel.x = (0 : ℝ) from rfl, show c4Cam.vel.y = (0 : ℝ) from rfl,
    show c4Cam.vel.z = (-10 : ℝ) from rfl, show c4Cam.acc.x = (0 : ℝ) from rfl,
    show c4Cam.acc.y = (0 : ℝ) from rfl, show c4Cam.acc.z = (10 : ℝ) from rfl]
  norm_num [Vec3.mk.injEq]

/-- C4 counterexample: at `c4Cam` with `dt = 1` the integrated 2D
velocity is exactly `(0, 0)` and exactly one horizontal acceleration
component (`acc.z`) is nonzero, yet `update_vel` does *not* skip the
friction nudge: the x velocity becomes `-5`, not the integrated `0`. -/
theorem update_vel_zero_mag_skip_counterexample :
    c4Cam.acc.x = 0 ∧ c4Cam.acc.z ≠ 0 ∧
    (c4Cam.vel_integrate 1).vel.x = 0 ∧ (c4Cam.vel_integrate 1).vel.z = 0 ∧
    (c4Cam.update_vel 1).vel.x = -5 ∧
    ¬ (c4Cam.update_vel 1).vel.x = (c4Cam.vel_integrate 1).vel.x := by
  have hB := c4Cam_vel_integrate_eval
  have hax : (c4Cam.vel_integrate 1).acc.x = 0 := rfl
  have haz : (c4Cam.vel_integrate 1).acc.z ≠ 0 := by
    rw [vel_integrate_acc]
    simp only [show c4Cam.acc.z = (10 : ℝ) from rfl]
    norm_num
  have hfwd : (⟨(c4Cam.vel_integrate 1).forward.x, 0,
      (c4Cam.vel_integrate 1).forward.z⟩ : Vec3) = ⟨1, 0, 0⟩ := rfl
  have hdot : dot2 ⟨(normalize3 ⟨(c4Cam.vel_integrate 1).forward.x, 0,
      (c4Cam.vel_integrate 1).forward.z⟩).x,
      (normalize3 ⟨(c4Cam.vel_integrate 1).forward.x, 0,
      (c4Cam.vel_integrate 1).forward.z⟩).z⟩
      ⟨(c4Cam.vel_integrate 1).vel.x, (c4Cam.vel_integrate 1).vel.z⟩ = 0 := by
    rw [hfwd, normalize3_e1, hB]
    norm_num [dot2]
  have hnudge := vel_friction_nudge_x_of_dot_zero (c4Cam.vel_integrate 1) 1 hax haz hdot
  have hvx : (c4Cam.update_vel 1).vel.x = -5 := by
    rw [Camera.update_vel, hnudge.1, hfwd, normalize3_e1, hB]
    norm_num [DEACCELERATION]
  have hvix : (c4Cam.vel_integrate 1).vel.x = 0 := by rw [hB]
  have hviz : (c4Cam.vel_integrate 1).vel.z = 0 := by rw [hB]
  refine ⟨rfl, ?_, hvix, hviz, hvx, ?_⟩
  · simp only [show c4Cam.acc.z = (10 : ℝ) from rfl]
    norm_num
  · rw [hvx, hvix]
    norm_num

/-- C4 (amended): the zero-magnitude case is *not* special-cased.  When
the integrated horizontal velocity is exactly `(0, 0)`, `acc.x = 0` and
`acc.z ≠ 0`, the angle formula divides by the zero velocity magnitude
(NaN in `f32`; `arccos 0 = π/2` under the real model's `x/0 = 0`
convention — both fail the `> π/2` test), and the `else` branch applies
the nudge `-forward_h * (dt * DEACCELERATION)` to the velocity. -/
theorem update_vel_zero_mag_nudge (c : Camera) (dt : ℝ)
    (hax : c.acc.x = 0) (haz : c.acc.z ≠ 0)
    (hvx : (c.vel_integrate dt).vel.x = 0) (hvz : (c.vel_integrate dt).vel.z = 0) :
    (c.update_vel dt).vel.x =
      -((normalize3 ⟨c.forward.x, 0, c.forward.z⟩).x * (dt * DEACCELERATION)) ∧
    (c.update_vel dt).vel.z =
      -((normalize3 ⟨c.forward.x, 0, c.forward.z⟩).z * (dt * DEACCELERATION)) := by
  have hax' : (c.vel_integrate dt).acc.x = 0 := by rw [vel_integrate_acc]; exact hax
  have haz' : (c.vel_integrate dt).acc.z ≠ 0 := by rw [vel_integrate_acc]; exact haz
  have hdot : dot2 ⟨(normalize3 ⟨(c.vel_integrate dt).forward.x, 0,
      (c.vel_integrate dt).forward.z⟩).x,
      (normalize3 ⟨(c.vel_integrate dt).forward.x, 0,
      (c.vel_integrate dt).forward.z⟩).z⟩
      ⟨(c.vel_integrate dt).vel.x, (c.vel_integrate dt).vel.z⟩ = 0 := by
    rw [hvx, hvz]
    simp [dot2]
  have hnudge := vel_friction_nudge_x_of_dot_zero (c.vel_integrate dt) dt hax' haz' hdot
  rw [Camera.update_vel]
  constructor
  · rw [hnudge.1, hvx, vel_integrate_forward]
    ring
  · rw [hnudge.2, hvz, vel_integrate_forward]
    ring

/-- Witness for C4's amended theorem at `c4Cam` with `dt = 1`. -/
theorem update_vel_zero_mag_nudge_witness :
    (c4Cam.update_vel 1).vel.x =
      -((normalize3 ⟨c4Cam.forward.x, 0, c4Cam.forward.z⟩).x * (1 * DEACCELERATION)) ∧
    (c4Cam.update_vel 1).vel.z =
      -((normalize3 ⟨c4Cam.forward.x, 0, c4Cam.forward.z⟩).z * (1 * DEACCELERATION)) := by
  have hB := c4Cam_vel_integrate_eval
  exact update_vel_zero_mag_nudge c4Cam 1 rfl
    (by simp only [show c4Cam.acc.z = (10 : ℝ) from rfl]; norm_num)
    (by rw [hB]) (by rw [hB])
